import Mathlib

/-!
Verification of the playwright-cli daemon core (session registry, command
handlers, eval-result serialization, and the accessibility-snapshot
formatter) against its natural-language specification.

JavaScript strings are modelled as `List Char`; JS `Map`s as
insertion-ordered association lists with first-match lookup.
-/

namespace PlaywrightCli

/-- A JavaScript string, modelled as a list of characters. -/
abbrev Str := List Char

/-! ## Snapshot formatter (src/types.ts, `snapshot` handler)

The handler takes the raw `ariaSnapshot()` text, splits it on newlines,
prefixes each non-blank line with a `@eN` reference token, optionally
filters lines by indentation depth, rejoins, and optionally compacts. -/

/-- Whitespace characters matched by the JS regex class `\s` (ASCII range;
the snapshot text produced by the engine only contains ASCII whitespace). -/
def jsWS (c : Char) : Bool :=
  c = ' ' || c = '\t' || c = '\n' || c = '\r' || c = '\x0b' || c = '\x0c'

/-- JS `snapshot.split('\n')`: splits on every newline, keeping empty
segments (including a trailing empty segment for a trailing newline). -/
def splitNL : Str → List Str
  | [] => [[]]
  | c :: cs =>
    if c = '\n' then [] :: splitNL cs
    else
      match splitNL cs with
      | [] => [[c]]
      | l :: ls => (c :: l) :: ls

/-- JS `lines.join('\n')`. -/
def joinNL : List Str → Str
  | [] => []
  | [l] => l
  | l :: ls => l ++ '\n' :: joinNL ls

/-- The reference token `@e${n}` prefixed to the n-th non-blank line. -/
def refTok (n : Nat) : Str := '@' :: 'e' :: (Nat.repr n).data

/-- JS truthiness of `line.trim()`: true iff the line has a
non-whitespace character. -/
def nonBlank (l : Str) : Bool := l.any (fun c => !(jsWS c))

/-- The `lines.map` body of the snapshot handler: each non-blank line is
prefixed with `@e${refCounter++} `, blank lines are returned unchanged;
`refCounter` starts at 0 and is threaded left to right. -/
def addRefs (refCounter : Nat) : List Str → List Str
  | [] => []
  | line :: rest =>
    if nonBlank line then
      (refTok refCounter ++ ' ' :: line) :: addRefs (refCounter + 1) rest
    else
      line :: addRefs refCounter rest

/-- `linesWithRefs` of the handler: split the raw snapshot and annotate. -/
def linesWithRefs (snapshot : Str) : List Str := addRefs 0 (splitNL snapshot)

/-- The regex match `line.match(/^@e\d+ (\s*)/)`: succeeds when the line
starts with `@e`, one or more decimal digits and a space, and returns the
length of the captured run of whitespace that follows. -/
def matchRefIndent (line : Str) : Option Nat :=
  match line with
  | '@' :: 'e' :: rest =>
    match rest.takeWhile Char.isDigit, rest.drop (rest.takeWhile Char.isDigit).length with
    | [], _ => none
    | _ :: _, ' ' :: afterSp => some ((afterSp.takeWhile jsWS).length)
    | _ :: _, _ => none
  | _ => none

/-- The depth-filter predicate of the snapshot handler: a line with no
`@eN ` match is kept; an annotated line is kept iff
`indent.length / 2 < maxDepth`. The source compares the exact rational
`indent.length / 2` (a JS float) against `maxDepth`; for an integral
`maxDepth` this is equivalent to `indent.length < 2 * maxDepth`. -/
def keepLine (maxDepth : Int) (line : Str) : Bool :=
  match matchRefIndent line with
  | none => true
  | some indentLen => decide ((indentLen : Int) < 2 * maxDepth)

/-- JS truthiness of the wire field `request.maxDepth : number | null`:
`null` and `0` are falsy. (A `NaN` produced by CLI-side `parseInt` is
serialized by `JSON.stringify` to `null`, so `none` also covers it.) -/
def truthyDepth : Option Int → Bool
  | none => false
  | some d => decide (d ≠ 0)

/-- `result.replace(/\n/g, ' | ')`: every newline becomes `' | '`. -/
def replaceNL : Str → Str
  | [] => []
  | c :: cs =>
    if c = '\n' then ' ' :: '|' :: ' ' :: replaceNL cs
    else c :: replaceNL cs

/-- Scanner for `replace(/\s+/g, ' ')`: `inRun` records whether the
previous character belonged to a whitespace run whose single replacement
space has already been emitted. -/
def collapseWSAux : Bool → Str → Str
  | _, [] => []
  | inRun, c :: cs =>
    if jsWS c then
      if inRun then collapseWSAux true cs else ' ' :: collapseWSAux true cs
    else c :: collapseWSAux false cs

/-- `result.replace(/\s+/g, ' ')`: each maximal run of whitespace becomes
a single space. -/
def collapseWS (s : Str) : Str := collapseWSAux false s

/-- JS `String.prototype.trim()`: strips whitespace from both ends. -/
def jsTrim (s : Str) : Str := ((s.dropWhile jsWS).reverse.dropWhile jsWS).reverse

/-- The snapshot handler's post-processing of the raw `ariaSnapshot()`
text: annotate lines with `@eN` refs, drop deep lines when
`request.maxDepth` is truthy, and compact to one line when
`request.compact` is set. -/
def snapshotResult (maxDepth : Option Int) (compact : Bool) (snapshot : Str) : Str :=
  let lwr := linesWithRefs snapshot
  let result :=
    if truthyDepth maxDepth then
      joinNL (lwr.filter (keepLine (maxDepth.getD 0)))
    else
      joinNL lwr
  if compact then jsTrim (collapseWS (replaceNL result)) else result

/-- Decimal value of a digit run, as accumulated by JS `parseInt`. -/
def digitsVal (ds : List Char) : Nat :=
  ds.foldl (fun acc c => 10 * acc + (c.toNat - '0'.toNat)) 0

/-- JS `parseInt(s, 10)`: skip leading whitespace, optional sign, then a
maximal run of decimal digits; `none` models the `NaN` result when no
digit is found. Parsing stops at the first non-digit. -/
def jsParseInt (s : Str) : Option Int :=
  match s.dropWhile jsWS with
  | '-' :: rest =>
    match rest.takeWhile Char.isDigit with
    | [] => none
    | ds => some (-(digitsVal ds : Int))
  | '+' :: rest =>
    match rest.takeWhile Char.isDigit with
    | [] => none
    | ds => some (digitsVal ds)
  | t =>
    match t.takeWhile Char.isDigit with
    | [] => none
    | ds => some (digitsVal ds)

/-- CLI-side depth parsing (src/cli.ts, `snapshot` command):
`const maxDepth = depthArg ? parseInt(depthArg, 10) : null`, followed by
JSON serialization of the request, under which `NaN` becomes `null`.
The value returned here is the server-side view of `request.maxDepth`. -/
def cliMaxDepth (depthArg : Option Str) : Option Int :=
  match depthArg with
  | none => none
  | some s => if s = [] then none else jsParseInt s

/-- Number of non-blank lines in a list (the value of the handler's
`refCounter` after consuming the list). -/
def countNonBlank (ls : List Str) : Nat := (ls.filter nonBlank).length

/-! ## Eval sandbox result serialization (src/types.ts, `exec` handler)

A JavaScript value as seen by the serialization ladder. Objects carry the
outcome of `JSON.stringify(result, null, 2)` abstractly: `some j` when the
host serializer succeeds with pretty-printed text `j`, `none` when it
throws (cycles, non-serializable handles); `strForm` is `String(result)`. -/
inductive JSValue where
  | undef
  | null
  | boolean (b : Bool)
  | number (n : Int)
  | strVal (s : Str)
  | obj (jsonAttempt : Option Str) (strForm : Str)
deriving DecidableEq

/-- JS `typeof`; note the language quirk `typeof null === 'object'`. -/
def jsTypeof : JSValue → Str
  | .undef => "undefined".data
  | .null => "object".data
  | .boolean _ => "boolean".data
  | .number _ => "number".data
  | .strVal _ => "string".data
  | .obj _ _ => "object".data

/-- JS `String(v)`. -/
def jsToString : JSValue → Str
  | .undef => "undefined".data
  | .null => "null".data
  | .boolean b => if b then "true".data else "false".data
  | .number n => (toString n).data
  | .strVal s => s
  | .obj _ strForm => strForm

/-- The outcome of `JSON.stringify(v, null, 2)`: for objects it is the
abstract attempt carried by the value; the remaining cases are never
reached by `serializeResult` (they are guarded away by the `typeof`
test) and are given their actual host behavior where it is simple. -/
def jsonStringifyAttempt : JSValue → Option Str
  | .obj jsonAttempt _ => jsonAttempt
  | .undef => none
  | .null => some "null".data
  | .boolean b => some (if b then "true".data else "false".data)
  | .number n => some ((toString n).data)
  | .strVal s => some ('"' :: s ++ ['"'])

/-- The result-serialization ladder of the `exec` handler, in source
order: `undefined`, then `null`, then object-typed values through
`JSON.stringify` with a `String(result)` fallback on throw, then all
other values through `String(result)`. -/
def serializeResult (result : JSValue) : Str :=
  if result = .undef then "undefined".data
  else if result = .null then "null".data
  else if jsTypeof result = "object".data then
    match jsonStringifyAttempt result with
    | some j => j
    | none => jsToString result
  else jsToString result

/-! ## Session registry data model (src/types.ts)

JS `Map`s are modelled as insertion-ordered association lists with
first-match lookup; `Map.set` replaces in place or appends; `Map.delete`
removes the entry. -/

/-- First-match lookup, JS `map.get(k)` (and `map.has(k)` via `isSome`). -/
def mapGet {α : Type} : List (Str × α) → Str → Option α
  | [], _ => none
  | (k0, v0) :: rest, k => if k0 = k then some v0 else mapGet rest k

/-- JS `map.set(k, v)`: replaces the first entry with key `k` in place,
or appends a new entry at the end. -/
def mapSet {α : Type} : List (Str × α) → Str → α → List (Str × α)
  | [], k, v => [(k, v)]
  | (k0, v0) :: rest, k, v =>
    if k0 = k then (k, v) :: rest else (k0, v0) :: mapSet rest k v

/-- JS `map.delete(k)`. -/
def mapDelete {α : Type} (m : List (Str × α)) (k : Str) : List (Str × α) :=
  m.filter (fun p => !(p.1 = k))

/-- A live automation-engine page handle: its current URL, whether the
engine's `page.close()` would throw (and with what message), and whether
it has been closed. The two close fields model the external engine's
behavior, which the daemon only observes. -/
structure PageH where
  url : Str
  closeFails : Option Str
  closed : Bool
deriving DecidableEq

/-- An engine browser-context handle; `closeFails` models whether
`context.close()` would throw, with the error message. -/
structure ContextH where
  closeFails : Option Str
deriving DecidableEq

/-- `BrowserData` of the source: a context handle plus the `pages` map. -/
structure BrowserData where
  context : ContextH
  pages : List (Str × PageH)
deriving DecidableEq

/-- The daemon's registry state: the `browsers` map plus the index of the
next id drawn from the id stream (successive `crypto.randomUUID()`
results are modelled as a stream `gen : Nat → Str` consumed in order). -/
structure ServerState where
  browsers : List (Str × BrowserData)
  nextGen : Nat
deriving DecidableEq

/-- The registry at daemon startup: empty, nothing drawn from the id
stream. -/
def initialState : ServerState := { browsers := [], nextGen := 0 }

/-- The reserved id of the implicitly-created default session. -/
def DEFAULT_BROWSER_ID : Str := "default".data

/-- A response envelope: `success` plus the optional fields the handlers
set. Exactly one envelope is written per request. -/
structure Response where
  success : Bool
  result : Option Str := none
  error : Option Str := none
  pageId : Option Str := none
  browserId : Option Str := none
deriving DecidableEq

/-- `findPage` of the source: scan all browsers in insertion order and
return the owning browser id, its data and the page handle of the first
map that contains `pageId`. -/
def findPage (browsers : List (Str × BrowserData)) (pageId : Str) :
    Option (Str × BrowserData × PageH) :=
  match browsers with
  | [] => none
  | (bid, bd) :: rest =>
    match mapGet bd.pages pageId with
    | some p => some (bid, bd, p)
    | none => findPage rest pageId

/-- The `exec` handler. The client-supplied expression is compiled and
evaluated by the host engine inside the handler's `try`; that external
step's outcome is the parameter `evalOutcome` (`.error msg` when either
the compilation of the source or its evaluation throws, with
`getErrorMessage` of the thrown value; `.ok v` with the resulting
value). The handler validates `pageId`, resolves the page, and converts
the outcome into exactly one envelope; it is a total function, so no
fault escapes it. -/
def execHandler (browsers : List (Str × BrowserData)) (pageId : Option Str)
    (evalOutcome : Except Str JSValue) : Response :=
  match pageId with
  | none =>
    { success := false,
      error := some "pageId is required. Create a page first with: playwright-cli new-page".data }
  | some pid =>
    if pid = [] then
      { success := false,
        error := some "pageId is required. Create a page first with: playwright-cli new-page".data }
    else
      match findPage browsers pid with
      | none => { success := false, error := some ("Page not found: ".data ++ pid) }
      | some _ =>
        match evalOutcome with
        | .error msg => { success := false, error := some msg }
        | .ok v => { success := true, result := some (serializeResult v) }

/-- The blank placeholder location every new page is navigated to. -/
def BLANK : Str := "about:blank".data

/-- The engine's `context.newPage()` result: a fresh live handle. Its
engine-assigned initial location is irrelevant to the model because the
handler immediately navigates it; it is left empty here. -/
def engineNewPage : PageH := { url := [], closeFails := none, closed := false }

/-- The engine's `page.goto(u)`. -/
def engineGoto (p : PageH) (u : Str) : PageH := { p with url := u }

/-- `request.browserId || DEFAULT_BROWSER_ID`: `undefined` and the empty
string are falsy. -/
def jsOrDefault : Option Str → Str
  | none => DEFAULT_BROWSER_ID
  | some b => if b = [] then DEFAULT_BROWSER_ID else b

/-- `getOrCreateDefaultBrowser` of the source: lazily materialize the
default session (a fresh engine context with an empty page map) on first
use; return the existing one afterwards. -/
def getOrCreateDefaultBrowser (st : ServerState) : BrowserData × ServerState :=
  match mapGet st.browsers DEFAULT_BROWSER_ID with
  | some bd => (bd, st)
  | none =>
    let bd : BrowserData := { context := { closeFails := none }, pages := [] }
    (bd, { st with browsers := mapSet st.browsers DEFAULT_BROWSER_ID bd })

/-- The common tail of the `newPage` handler once a browser session is
resolved: draw a fresh id (`generateId()`), create a page, navigate it to
the blank placeholder, register it in the session's page map, and answer
with the new ids. -/
def registerNewPage (gen : Nat → Str) (browserId : Str) (bd : BrowserData)
    (st1 : ServerState) : Response × ServerState :=
  let pageId := gen st1.nextGen
  let page := engineGoto engineNewPage BLANK
  ({ success := true, pageId := some pageId, browserId := some browserId },
   { browsers := mapSet st1.browsers browserId { bd with pages := mapSet bd.pages pageId page },
     nextGen := st1.nextGen + 1 })

/-- The `newPage` handler: resolve the target session (creating the
default lazily; an unknown non-default id is an error that mutates
nothing), then create and register the page. -/
def newPageHandler (gen : Nat → Str) (requestBrowserId : Option Str)
    (st : ServerState) : Response × ServerState :=
  let browserId := jsOrDefault requestBrowserId
  if browserId = DEFAULT_BROWSER_ID then
    let r := getOrCreateDefaultBrowser st
    registerNewPage gen browserId r.1 r.2
  else
    match mapGet st.browsers browserId with
    | none =>
      ({ success := false,
         error := some ("Browser not found: ".data ++ browserId ++
           ". Create one with: playwright-cli new-browser".data) }, st)
    | some bd => registerNewPage gen browserId bd st

/-- A run of consecutive `newPage` requests against the daemon. -/
def runNewPages (gen : Nat → Str) : List (Option Str) → ServerState →
    List Response × ServerState
  | [], st => ([], st)
  | r :: rest, st =>
    let p := newPageHandler gen r st
    let q := runNewPages gen rest p.2
    (p.1 :: q.1, q.2)

/-- All page ids registered across all sessions, in registry order. -/
def pageIdsOf (browsers : List (Str × BrowserData)) : List Str :=
  browsers.flatMap (fun p => p.2.pages.map (fun q => q.1))

/-- All page ids of a server state. -/
def allPageIds (st : ServerState) : List Str := pageIdsOf st.browsers

/-- A page handle is registered somewhere: some session's map carries it
under the given id. -/
def pagePresent (st : ServerState) (pid : Str) (pg : PageH) : Prop :=
  ∃ bid bd, mapGet st.browsers bid = some bd ∧ mapGet bd.pages pid = some pg

/-- Registry invariant tying the state to the id stream: all page ids are
pairwise distinct (in particular no id appears under two sessions), and
every registered id was drawn from an already-consumed position of the
stream. -/
def RegInv (gen : Nat → Str) (st : ServerState) : Prop :=
  (allPageIds st).Nodup ∧ ∀ id ∈ allPageIds st, ∃ i, i < st.nextGen ∧ gen i = id

/-- The page-closing loop of the `closeBrowser` handler, inside its
single `try`: pages are closed in map order; the first `page.close()`
that throws aborts the loop (the remaining pages are left untouched).
Returns the updated page entries and the first error message, if any. -/
def closePagesUpto : List (Str × PageH) → List (Str × PageH) × Option Str
  | [] => ([], none)
  | (pid, pg) :: rest =>
    match pg.closeFails with
    | some msg => ((pid, pg) :: rest, some msg)
    | none =>
      let r := closePagesUpto rest
      ((pid, { pg with closed := true }) :: r.1, r.2)

/-- The `closeBrowser` handler: a missing id is a required-field error;
an absent id is a not-found error; otherwise all pages are closed, then
the context, then the session entry is deleted — but any throw inside the
`try` (a page close or the context close) aborts the sequence and is
answered as a failure envelope, leaving the session registered. -/
def closeBrowserHandler (requestBrowserId : Option Str) (st : ServerState) :
    Response × ServerState :=
  match requestBrowserId with
  | none => ({ success := false, error := some "browserId is required".data }, st)
  | some bid =>
    if bid = [] then
      ({ success := false, error := some "browserId is required".data }, st)
    else
      match mapGet st.browsers bid with
      | none => ({ success := false, error := some ("Browser not found: ".data ++ bid) }, st)
      | some bd =>
        let r := closePagesUpto bd.pages
        match r.2 with
        | some msg =>
          ({ success := false, error := some msg },
           { st with browsers := mapSet st.browsers bid { bd with pages := r.1 } })
        | none =>
          match bd.context.closeFails with
          | some msg =>
            ({ success := false, error := some msg },
             { st with browsers := mapSet st.browsers bid { bd with pages := r.1 } })
          | none =>
            ({ success := true, result := some "Browser closed".data },
             { st with browsers := mapDelete st.browsers bid })

/-- A one-session, one-page registry used to instantiate theorems with
hypotheses on concrete inputs. -/
def exBrowsers : List (Str × BrowserData) :=
  [(DEFAULT_BROWSER_ID,
    { context := { closeFails := none },
      pages := [(['p'], { url := BLANK, closeFails := none, closed := false })] })]

/-- A registry with one session `"b"` holding a page whose engine close
throws `"boom"` followed by a healthy page, used to exhibit the abort
behavior of `closeBrowser`. -/
def exCloseSt : ServerState :=
  { browsers :=
      [(['b'],
        { context := { closeFails := none },
          pages := [(['p'], { url := BLANK, closeFails := some "boom".data, closed := false }),
                    (['q'], { url := BLANK, closeFails := none, closed := false })] })],
    nextGen := 2 }

/-! ## Lemmas about the snapshot formatter -/

theorem addRefs_length (n : Nat) (ls : List Str) : (addRefs n ls).length = ls.length := by
  induction ls generalizing n with
  | nil => rfl
  | cons l rest ih =>
    by_cases h : nonBlank l <;> simp [addRefs, h, ih]

theorem countNonBlank_cons (l : Str) (ls : List Str) :
    countNonBlank (l :: ls) = (if nonBlank l then 1 else 0) + countNonBlank ls := by
  by_cases h : nonBlank l <;>
    simp [countNonBlank, List.filter_cons, h, Nat.add_comm]

theorem addRefs_getD (n : Nat) (ls : List Str) (i : Nat) :
    (addRefs n ls).getD i [] =
      if nonBlank (ls.getD i []) then
        refTok (n + countNonBlank (ls.take i)) ++ ' ' :: ls.getD i []
      else ls.getD i [] := by
  induction ls generalizing n i with
  | nil => simp [addRefs, nonBlank]
  | cons l rest ih =>
    cases i with
    | zero =>
      by_cases h : nonBlank l <;> simp [addRefs, h, countNonBlank]
    | succ j =>
      cases h : nonBlank l with
      | true =>
        rw [addRefs, if_pos h]
        have hc : countNonBlank (List.take (j + 1) (l :: rest)) =
            1 + countNonBlank (List.take j rest) := by
          simp [List.take_succ_cons, countNonBlank_cons, h]
        simp only [List.getD_cons_succ, List.take_succ_cons] at *
        rw [hc, ← Nat.add_assoc]
        exact ih (n + 1) j
      | false =>
        rw [addRefs, if_neg (by simp [h])]
        have hc : countNonBlank (List.take (j + 1) (l :: rest)) =
            countNonBlank (List.take j rest) := by
          simp [List.take_succ_cons, countNonBlank_cons, h]
        simp only [List.getD_cons_succ, List.take_succ_cons] at *
        rw [hc]
        exact ih n j

theorem mem_of_mem_dropWhile {p : Char → Bool} {c : Char} :
    ∀ {l : Str}, c ∈ l.dropWhile p → c ∈ l := by
  intro l
  induction l with
  | nil => simp [List.dropWhile]
  | cons a as ih =>
    intro h
    by_cases hp : p a
    · simp only [List.dropWhile, hp] at h
      exact List.mem_cons_of_mem a (ih h)
    · simpa [List.dropWhile, hp] using h

theorem mem_of_mem_jsTrim {c : Char} {s : Str} (h : c ∈ jsTrim s) : c ∈ s := by
  unfold jsTrim at h
  rw [List.mem_reverse] at h
  have h2 := mem_of_mem_dropWhile h
  rw [List.mem_reverse] at h2
  exact mem_of_mem_dropWhile h2

theorem replaceNL_no_newline : ∀ s : Str, '\n' ∉ replaceNL s := by
  intro s
  induction s with
  | nil => intro h; simp [replaceNL] at h
  | cons c cs ih =>
    intro h
    by_cases hc : c = '\n'
    · rw [replaceNL, if_pos hc] at h
      rcases List.mem_cons.mp h with h | h
      · exact absurd h (by decide)
      rcases List.mem_cons.mp h with h | h
      · exact absurd h (by decide)
      rcases List.mem_cons.mp h with h | h
      · exact absurd h (by decide)
      · exact ih h
    · rw [replaceNL, if_neg hc] at h
      rcases List.mem_cons.mp h with h | h
      · exact hc h.symm
      · exact ih h

theorem collapseWSAux_mem (c : Char) :
    ∀ (s : Str) (b : Bool), c ∈ collapseWSAux b s → c = ' ' ∨ jsWS c = false := by
  intro s
  induction s with
  | nil => intro b h; simp [collapseWSAux] at h
  | cons a as ih =>
    intro b h
    by_cases ha : jsWS a
    · rw [collapseWSAux, if_pos ha] at h
      cases b with
      | true => exact ih true h
      | false =>
        rcases List.mem_cons.mp h with h | h
        · exact Or.inl h
        · exact ih true h
    · rw [collapseWSAux, if_neg ha] at h
      rcases List.mem_cons.mp h with h | h
      · subst h; exact Or.inr (by simpa using ha)
      · exact ih false h

theorem collapseWS_no_newline (s : Str) : '\n' ∉ collapseWS s := by
  intro h
  rcases collapseWSAux_mem '\n' s false h with h1 | h1
  · exact absurd h1 (by decide)
  · exact absurd h1 (by decide)

/-! ## Claims about the snapshot formatter -/

/-- C1: every non-blank line of the input is prefixed with the reference
token `@eN`, where `N` counts the non-blank lines strictly before it in
input order (so tokens are `@e0`, `@e1`, … monotonically increasing in
the exact order the lines appear); blank lines are passed through
unannotated and unchanged; line count is preserved. The annotation is a
pure function of the input, so re-running it on an unchanged input
yields identical assignments. -/
theorem snapshot_ref_tokens (s : Str) :
    (linesWithRefs s).length = (splitNL s).length ∧
    ∀ i : Nat,
      (linesWithRefs s).getD i [] =
        if nonBlank ((splitNL s).getD i []) then
          refTok (countNonBlank ((splitNL s).take i)) ++ ' ' :: (splitNL s).getD i []
        else (splitNL s).getD i [] := by
  refine ⟨addRefs_length 0 _, fun i => ?_⟩
  simpa [linesWithRefs] using addRefs_getD 0 (splitNL s) i

/-- C2: with a configured (truthy) maximum depth `d`, the output is the
annotated line list filtered by the depth predicate; a line's depth is
the length of the whitespace run immediately after its `@eN ` token
divided by 2 (two spaces per level), and exactly the annotated lines at
or beyond the maximum (`indentLen / 2 ≥ d`, i.e. `2 * d ≤ indentLen`)
are dropped; the kept lines are a sublist of the unlimited annotated
output, hence a subset in the same relative order. -/
theorem snapshot_depth_limiting (d : Int) (s : Str) (hd : d ≠ 0) :
    snapshotResult (some d) false s = joinNL ((linesWithRefs s).filter (keepLine d)) ∧
    List.Sublist ((linesWithRefs s).filter (keepLine d)) (linesWithRefs s) ∧
    ∀ line, keepLine d line = false ↔
      ∃ indentLen, matchRefIndent line = some indentLen ∧ 2 * d ≤ (indentLen : Int) := by
  refine ⟨?_, List.filter_sublist _, ?_⟩
  · simp [snapshotResult, truthyDepth, hd]
  · intro line
    unfold keepLine
    cases h : matchRefIndent line with
    | none => simp
    | some k =>
      simp only [decide_eq_false_iff_not, not_lt, Option.some.injEq]
      constructor
      · intro hk; exact ⟨k, rfl, hk⟩
      · rintro ⟨k2, hk2, hle⟩; cases hk2; exact hle

/-- Witness for C2 at depth 1 on a three-level tree. -/
theorem snapshot_depth_limiting_witness :
    snapshotResult (some 1) false ("root\n  child\n    grand".data) =
      joinNL ((linesWithRefs ("root\n  child\n    grand".data)).filter (keepLine 1)) :=
  (snapshot_depth_limiting 1 ("root\n  child\n    grand".data) (by decide)).1

/-- C3 counterexample: on the tree `root / child / grand` (depths 0, 1,
2), a snapshot with depth limit 1 does not keep the depth-0 and depth-1
lines as the claim states: the depth-1 line `@e1   child` is dropped as
well, and only the depth-0 line `@e0 root` remains (the filter keeps a
line only when its depth is strictly below the limit). -/
theorem snapshot_depth1_cex :
    snapshotResult (some 1) false ("root\n  child\n    grand".data) ≠
      ("@e0 root\n@e1   child".data) ∧
    snapshotResult (some 1) false ("root\n  child\n    grand".data) = "@e0 root".data := by
  decide

/-- C3 (amended): on a tree with nodes at depths 0, 1 and 2, a snapshot
with depth limit 1 yields exactly the depth-0 lines (with their `@eN`
prefixes); the depth-1 and depth-2 lines are removed. Depth limit 2 is
the request that yields exactly the depth-0 and depth-1 lines. -/
theorem snapshot_depth1_amended :
    snapshotResult (some 1) false ("root\n  child\n    grand".data) = "@e0 root".data ∧
    snapshotResult (some 2) false ("root\n  child\n    grand".data) =
      "@e0 root\n@e1   child".data := by
  decide

/-- C4: compaction post-processes the (possibly depth-limited) output by
replacing every newline with the pipe separator `" | "`, collapsing every
run of whitespace to a single space (and trimming the ends), so the
compacted result contains no newline character; the depth limit is
applied before compaction (the compacted string is derived from the
already depth-limited non-compact output of the same request). -/
theorem snapshot_compaction (maxDepth : Option Int) (s : Str) :
    snapshotResult maxDepth true s =
      jsTrim (collapseWS (replaceNL (snapshotResult maxDepth false s))) ∧
    '\n' ∉ snapshotResult maxDepth true s := by
  have h1 : snapshotResult maxDepth true s =
      jsTrim (collapseWS (replaceNL (snapshotResult maxDepth false s))) := by
    simp [snapshotResult]
  refine ⟨h1, ?_⟩
  rw [h1]
  intro h
  exact collapseWS_no_newline _ (mem_of_mem_jsTrim h)

/-- C10: a requested maximum depth of 0 is falsy, and a non-numeric `-d`
argument parses to `NaN` (which reaches the server as `null`); both
disable depth limiting entirely, so the full annotated output is
returned with no lines dropped. -/
theorem snapshot_depth_zero_disabled (s : Str) (c : Bool) (arg : Str)
    (hnan : jsParseInt arg = none) :
    snapshotResult (some 0) c s = snapshotResult none c s ∧
    snapshotResult none false s = joinNL (linesWithRefs s) ∧
    cliMaxDepth (some arg) = none := by
  refine ⟨?_, ?_, ?_⟩
  · simp [snapshotResult, truthyDepth]
  · simp [snapshotResult, truthyDepth]
  · unfold cliMaxDepth
    by_cases h : arg = ([] : Str) <;> simp [h, hnan]

/-- Witness for C10: depth 0 and the non-numeric argument "abc" both
disable depth limiting on a concrete two-level tree. -/
theorem snapshot_depth_zero_disabled_witness :
    snapshotResult (some 0) false ("root\n  kid".data) =
      snapshotResult none false ("root\n  kid".data) ∧
    cliMaxDepth (some "abc".data) = none := by
  have h := snapshot_depth_zero_disabled ("root\n  kid".data) false ("abc".data) (by decide)
  exact ⟨h.1, h.2.2⟩

/-! ## Claims about the eval sandbox and registry handlers -/

/-- C5: the result-serialization priority order of the `exec` handler:
`undefined` maps to the literal marker string, `null` maps to the
literal marker string (even though `typeof null` is `"object"`),
object-typed values map to their pretty-printed JSON text when
`JSON.stringify` succeeds, object-typed values whose serialization
throws fall back to `String(result)`, and all other (primitive) values
map to their natural string form. -/
theorem exec_result_serialization :
    serializeResult .undef = "undefined".data ∧
    serializeResult .null = "null".data ∧
    (∀ j sf, serializeResult (.obj (some j) sf) = j) ∧
    (∀ sf, serializeResult (.obj none sf) = sf) ∧
    (∀ b, serializeResult (.boolean b) = (if b then "true".data else "false".data)) ∧
    (∀ n, serializeResult (.number n) = (toString n).data) ∧
    (∀ s, serializeResult (.strVal s) = s) := by
  refine ⟨rfl, by decide, ?_, ?_, ?_, ?_, ?_⟩
  · intro j sf
    simp [serializeResult, jsTypeof, jsonStringifyAttempt]
  · intro sf
    simp [serializeResult, jsTypeof, jsonStringifyAttempt, jsToString]
  · intro b
    cases b <;> decide
  · intro n
    have h3 : ¬jsTypeof (JSValue.number n) = "object".data := by
      show ¬"number".data = "object".data
      decide
    simp [serializeResult, h3, jsToString]
  · intro s
    have h3 : ¬jsTypeof (JSValue.strVal s) = "object".data := by
      show ¬"string".data = "object".data
      decide
    simp [serializeResult, h3, jsToString]

/-- C6: when the supplied expression throws — whether compiling the
source or evaluating it fails — the `exec` handler converts the caught
error into exactly one failure envelope carrying the error's message.
The handler is a total function producing exactly one envelope on every
input, so no fault escapes it and the daemon does not crash. -/
theorem exec_throw_failure (browsers : List (Str × BrowserData)) (pid : Str) (msg : Str)
    (hpid : pid ≠ []) (hfound : (findPage browsers pid).isSome = true) :
    execHandler browsers (some pid) (.error msg) =
      { success := false, error := some msg } := by
  obtain ⟨f, hf⟩ := Option.isSome_iff_exists.mp hfound
  simp only [execHandler]
  rw [if_neg hpid, hf]

/-- Witness for C6 on a concrete one-page registry. -/
theorem exec_throw_failure_witness :
    execHandler exBrowsers (some ['p']) (.error "boom".data) =
      { success := false, error := some "boom".data } :=
  exec_throw_failure exBrowsers ['p'] "boom".data (by decide) (by decide)

/-- C8: creating a page against an unknown, non-default session id fails
with an error message naming the missing id, does not fall back to the
default session, and returns the registry state unchanged (no mutation,
and no id is drawn from the id stream). -/
theorem newPage_unknown_session (gen : Nat → Str) (bid : Str) (st : ServerState)
    (hne : bid ≠ DEFAULT_BROWSER_ID) (hnil : bid ≠ [])
    (habs : mapGet st.browsers bid = none) :
    newPageHandler gen (some bid) st =
      ({ success := false,
         error := some ("Browser not found: ".data ++ bid ++
           ". Create one with: playwright-cli new-browser".data) }, st) := by
  simp only [newPageHandler, jsOrDefault]
  rw [if_neg hnil, if_neg hne, habs]

/-- Witness for C8: a fresh daemon rejects session id `"x"`. -/
theorem newPage_unknown_session_witness :
    newPageHandler (fun n => List.replicate (n + 1) 'a') (some ['x']) initialState =
      ({ success := false,
         error := some ("Browser not found: ".data ++ ['x'] ++
           ". Create one with: playwright-cli new-browser".data) }, initialState) :=
  newPage_unknown_session (fun n => List.replicate (n + 1) 'a') ['x'] initialState
    (by decide) (by decide) (by decide)

theorem closePagesUpto_all_ok (pages : List (Str × PageH))
    (h : ∀ q ∈ pages, q.2.closeFails = none) :
    closePagesUpto pages =
      (pages.map (fun q => (q.1, { q.2 with closed := true })), none) := by
  induction pages with
  | nil => rfl
  | cons a rest ih =>
    obtain ⟨pid, pg⟩ := a
    have ha : pg.closeFails = none := h (pid, pg) (List.mem_cons_self _ _)
    simp only [closePagesUpto, ha, List.map_cons]
    rw [ih (fun q hq => h q (List.mem_cons_of_mem _ hq))]

theorem closePagesUpto_abort (pre : List (Str × PageH)) (pid : Str) (pg : PageH)
    (post : List (Str × PageH)) (m : Str)
    (hpre : ∀ q ∈ pre, q.2.closeFails = none) (hfail : pg.closeFails = some m) :
    closePagesUpto (pre ++ (pid, pg) :: post) =
      (pre.map (fun q => (q.1, { q.2 with closed := true })) ++ (pid, pg) :: post,
       some m) := by
  induction pre with
  | nil => simp only [List.nil_append, closePagesUpto, hfail, List.map_nil]
  | cons a rest ih =>
    obtain ⟨qid, qg⟩ := a
    have ha : qg.closeFails = none := hpre (qid, qg) (List.mem_cons_self _ _)
    simp only [List.cons_append, closePagesUpto, ha, List.map_cons, List.append_eq]
    rw [ih (fun q hq => hpre q (List.mem_cons_of_mem _ hq))]

/-- C9 counterexample: in a session whose first page's engine close
throws `"boom"` while its second page would close fine, `closeBrowser`
answers a failure envelope and leaves the registry state completely
unchanged: the session is still registered and the second page has not
been closed. This refutes "a failure closing one page does not abort
closing the remaining pages ... then closes the context and removes the
session from the registry"; only the NotFound half of the claim holds. -/
theorem closeSession_abort_cex :
    closeBrowserHandler (some ['b']) exCloseSt =
      ({ success := false, error := some "boom".data }, exCloseSt) ∧
    (mapGet exCloseSt.browsers ['b']).isSome = true ∧
    ((mapGet exCloseSt.browsers ['b']).bind (fun bd => mapGet bd.pages ['q'])).map
      (fun pg => pg.closed) = some false := by
  decide

/-- C9 (amended): `closeSession` on an absent id fails with a NotFound
error naming the id and mutates nothing. On a present id it closes the
contained pages in map order, but the loop is not best-effort: the first
`page.close()` that throws aborts the loop — the remaining pages are not
closed, the context is not closed, the session stays in the registry,
and the error is reported in a failure envelope. Only when every page
close and the context close succeed is the session removed from the
registry. -/
theorem closeSession_amended (bid : Str) (st : ServerState) (hnil : bid ≠ []) :
    (mapGet st.browsers bid = none →
      closeBrowserHandler (some bid) st =
        ({ success := false, error := some ("Browser not found: ".data ++ bid) }, st)) ∧
    (∀ bd, mapGet st.browsers bid = some bd →
      (∀ q ∈ bd.pages, q.2.closeFails = none) → bd.context.closeFails = none →
      closeBrowserHandler (some bid) st =
        ({ success := true, result := some "Browser closed".data },
         { st with browsers := mapDelete st.browsers bid })) ∧
    (∀ bd m, mapGet st.browsers bid = some bd → (closePagesUpto bd.pages).2 = some m →
      closeBrowserHandler (some bid) st =
        ({ success := false, error := some m },
         { st with browsers :=
             (mapSet st.browsers bid { bd with pages := (closePagesUpto bd.pages).1 }) })) ∧
    (∀ pre pid pg post m, (∀ q ∈ pre, q.2.closeFails = none) → pg.closeFails = some m →
      closePagesUpto (pre ++ (pid, pg) :: post) =
        (pre.map (fun q => (q.1, { q.2 with closed := true })) ++ (pid, pg) :: post,
         some m)) := by
  refine ⟨?_, ?_, ?_, ?_⟩
  · intro habs
    simp only [closeBrowserHandler]
    rw [if_neg hnil, habs]
  · intro bd hbd hpages hctx
    simp only [closeBrowserHandler]
    rw [if_neg hnil, hbd]
    simp only [closePagesUpto_all_ok bd.pages hpages, hctx]
  · intro bd m hbd hm
    simp only [closeBrowserHandler]
    rw [if_neg hnil, hbd]
    simp only [hm]
  · intro pre pid pg post m hpre hfail
    exact closePagesUpto_abort pre pid pg post m hpre hfail

/-- Witness for C9 (amended): closing the healthy default session of a
concrete one-page registry succeeds and removes it. -/
theorem closeSession_amended_witness :
    closeBrowserHandler (some DEFAULT_BROWSER_ID) { browsers := exBrowsers, nextGen := 1 } =
      ({ success := true, result := some "Browser closed".data },
       { browsers := mapDelete exBrowsers DEFAULT_BROWSER_ID, nextGen := 1 }) :=
  (closeSession_amended DEFAULT_BROWSER_ID { browsers := exBrowsers, nextGen := 1 }
    (by decide)).2.1
    { context := { closeFails := none },
      pages := [(['p'], { url := BLANK, closeFails := none, closed := false })] }
    (by decide) (by decide) (by decide)

/-! ## Registry map lemmas -/

theorem mapGet_mem_keys {α : Type} {m : List (Str × α)} {k : Str} {v : α}
    (h : mapGet m k = some v) : k ∈ m.map (fun p => p.1) := by
  induction m with
  | nil => simp [mapGet] at h
  | cons a rest ih =>
    obtain ⟨k0, v0⟩ := a
    by_cases h0 : k0 = k
    · subst h0; exact List.mem_cons_self _ _
    · rw [mapGet, if_neg h0] at h
      exact List.mem_cons_of_mem _ (ih h)

theorem mapGet_mapSet_self {α : Type} (m : List (Str × α)) (k : Str) (v : α) :
    mapGet (mapSet m k v) k = some v := by
  induction m with
  | nil => simp [mapSet, mapGet]
  | cons a rest ih =>
    obtain ⟨k0, v0⟩ := a
    by_cases h : k0 = k
    · simp [mapSet, h, mapGet]
    · simp [mapSet, h, mapGet, ih]

theorem mapGet_mapSet_ne {α : Type} (m : List (Str × α)) (k k2 : Str) (v : α)
    (h : k2 ≠ k) : mapGet (mapSet m k v) k2 = mapGet m k2 := by
  induction m with
  | nil => simp [mapSet, mapGet, Ne.symm h]
  | cons a rest ih =>
    obtain ⟨k0, v0⟩ := a
    by_cases h0 : k0 = k
    · subst h0
      rw [mapSet, if_pos rfl, mapGet, mapGet, if_neg (Ne.symm h), if_neg (Ne.symm h)]
    · rw [mapSet, if_neg h0, mapGet, mapGet]
      by_cases h2 : k0 = k2
      · rw [if_pos h2, if_pos h2]
      · rw [if_neg h2, if_neg h2, ih]

theorem mapSet_of_not_mem {α : Type} (m : List (Str × α)) (k : Str) (v : α)
    (h : mapGet m k = none) : mapSet m k v = m ++ [(k, v)] := by
  induction m with
  | nil => rfl
  | cons a rest ih =>
    obtain ⟨k0, v0⟩ := a
    by_cases h0 : k0 = k
    · rw [mapGet, if_pos h0] at h
      exact absurd h (by simp)
    · rw [mapGet, if_neg h0] at h
      simp [mapSet, h0, ih h]

theorem pageIdsOf_cons (a : Str × BrowserData) (rest : List (Str × BrowserData)) :
    pageIdsOf (a :: rest) = a.2.pages.map (fun q => q.1) ++ pageIdsOf rest := by
  simp [pageIdsOf]

theorem pageIdsOf_append (l1 l2 : List (Str × BrowserData)) :
    pageIdsOf (l1 ++ l2) = pageIdsOf l1 ++ pageIdsOf l2 := by
  simp [pageIdsOf]

theorem keys_subset_pageIdsOf (browsers : List (Str × BrowserData)) (bid : Str)
    (bd : BrowserData) (hbd : mapGet browsers bid = some bd) :
    ∀ x ∈ bd.pages.map (fun q => q.1), x ∈ pageIdsOf browsers := by
  induction browsers with
  | nil => simp [mapGet] at hbd
  | cons a rest ih =>
    obtain ⟨k0, d0⟩ := a
    by_cases h : k0 = bid
    · rw [mapGet, if_pos h] at hbd
      injection hbd with hbd
      subst hbd
      intro x hx
      rw [pageIdsOf_cons]
      exact List.mem_append_left _ hx
    · rw [mapGet, if_neg h] at hbd
      intro x hx
      rw [pageIdsOf_cons]
      exact List.mem_append_right _ (ih hbd x hx)

theorem pageIdsOf_mapSet_perm (browsers : List (Str × BrowserData)) (bid : Str)
    (bd : BrowserData) (pid : Str) (pg : PageH)
    (hbd : mapGet browsers bid = some bd) (hfresh : mapGet bd.pages pid = none) :
    List.Perm (pageIdsOf (mapSet browsers bid { bd with pages := mapSet bd.pages pid pg }))
      (pid :: pageIdsOf browsers) := by
  induction browsers with
  | nil => simp [mapGet] at hbd
  | cons a rest ih =>
    obtain ⟨k0, d0⟩ := a
    by_cases h : k0 = bid
    · subst h
      rw [mapGet, if_pos rfl] at hbd
      injection hbd with hbd
      subst hbd
      rw [mapSet, if_pos rfl, pageIdsOf_cons, pageIdsOf_cons]
      show List.Perm ((mapSet d0.pages pid pg).map (fun q => q.1) ++ pageIdsOf rest) _
      rw [mapSet_of_not_mem _ _ _ hfresh, List.map_append, List.append_assoc]
      exact List.perm_middle
    · rw [mapGet, if_neg h] at hbd
      rw [mapSet, if_neg h, pageIdsOf_cons, pageIdsOf_cons]
      exact ((ih hbd).append_left _).trans List.perm_middle

theorem pagePresent_mem (st : ServerState) (pid : Str) (pg : PageH)
    (h : pagePresent st pid pg) : pid ∈ allPageIds st := by
  obtain ⟨bid, bd, hb, hp⟩ := h
  exact keys_subset_pageIdsOf _ _ _ hb _ (mapGet_mem_keys hp)

theorem regInv_fresh_not_mem (gen : Nat → Str) (hinj : Function.Injective gen)
    (st : ServerState) (hInv : RegInv gen st) : gen st.nextGen ∉ allPageIds st := by
  intro hmem
  obtain ⟨i, hi, hgi⟩ := hInv.2 _ hmem
  exact absurd (hinj hgi) (Nat.ne_of_lt hi)

theorem getOrCreateDefault_spec (st : ServerState) :
    (getOrCreateDefaultBrowser st).2.nextGen = st.nextGen ∧
    mapGet (getOrCreateDefaultBrowser st).2.browsers DEFAULT_BROWSER_ID =
      some (getOrCreateDefaultBrowser st).1 ∧
    allPageIds (getOrCreateDefaultBrowser st).2 = allPageIds st ∧
    (∀ pid pg, pagePresent st pid pg → pagePresent (getOrCreateDefaultBrowser st).2 pid pg) ∧
    (∀ x ∈ (getOrCreateDefaultBrowser st).1.pages.map (fun q => q.1),
      x ∈ allPageIds st) := by
  cases hd : mapGet st.browsers DEFAULT_BROWSER_ID with
  | some bd =>
    have he : getOrCreateDefaultBrowser st = (bd, st) := by
      unfold getOrCreateDefaultBrowser
      rw [hd]
    rw [he]
    exact ⟨rfl, hd, rfl, fun pid pg h => h, keys_subset_pageIdsOf _ _ _ hd⟩
  | none =>
    have he : getOrCreateDefaultBrowser st =
        ({ context := { closeFails := none }, pages := [] },
         { st with browsers := (mapSet st.browsers DEFAULT_BROWSER_ID
             { context := { closeFails := none }, pages := [] }) }) := by
      unfold getOrCreateDefaultBrowser
      rw [hd]
    rw [he]
    refine ⟨rfl, mapGet_mapSet_self _ _ _, ?_, ?_, by simp⟩
    · show pageIdsOf (mapSet st.browsers DEFAULT_BROWSER_ID _) = _
      rw [mapSet_of_not_mem _ _ _ hd, pageIdsOf_append]
      simp [pageIdsOf, allPageIds]
    · rintro pid pg ⟨bid0, bd0, hb0, hp0⟩
      refine ⟨bid0, bd0, ?_, hp0⟩
      have hne : bid0 ≠ DEFAULT_BROWSER_ID := by
        intro h
        subst h
        rw [hb0] at hd
        cases hd
      show mapGet (mapSet st.browsers DEFAULT_BROWSER_ID _) bid0 = some bd0
      rw [mapGet_mapSet_ne _ _ _ _ hne]
      exact hb0

theorem registerNewPage_spec (gen : Nat → Str) (bid : Str) (bd : BrowserData)
    (st1 : ServerState) (hbd : mapGet st1.browsers bid = some bd)
    (hfresh : mapGet bd.pages (gen st1.nextGen) = none) :
    (registerNewPage gen bid bd st1).1 =
      { success := true, pageId := some (gen st1.nextGen), browserId := some bid } ∧
    (registerNewPage gen bid bd st1).2.nextGen = st1.nextGen + 1 ∧
    List.Perm (allPageIds (registerNewPage gen bid bd st1).2)
      (gen st1.nextGen :: allPageIds st1) ∧
    pagePresent (registerNewPage gen bid bd st1).2 (gen st1.nextGen)
      (engineGoto engineNewPage BLANK) ∧
    (∀ pid pg, pagePresent st1 pid pg → pid ≠ gen st1.nextGen →
      pagePresent (registerNewPage gen bid bd st1).2 pid pg) := by
  refine ⟨rfl, rfl, ?_, ?_, ?_⟩
  · exact pageIdsOf_mapSet_perm st1.browsers bid bd _ _ hbd hfresh
  · exact ⟨bid, _, mapGet_mapSet_self _ _ _, mapGet_mapSet_self _ _ _⟩
  · rintro pid pg ⟨bid0, bd0, hb0, hp0⟩ hne
    by_cases h : bid0 = bid
    · subst h
      rw [hb0] at hbd
      injection hbd with hbd
      subst hbd
      refine ⟨bid0, _, mapGet_mapSet_self _ _ _, ?_⟩
      rw [mapGet_mapSet_ne _ _ _ _ hne]
      exact hp0
    · refine ⟨bid0, bd0, ?_, hp0⟩
      show mapGet (mapSet st1.browsers bid _) bid0 = some bd0
      rw [mapGet_mapSet_ne _ _ _ _ h]
      exact hb0

theorem newPageHandler_step (gen : Nat → Str) (hinj : Function.Injective gen)
    (r : Option Str) (st : ServerState) (hInv : RegInv gen st) :
    RegInv gen (newPageHandler gen r st).2 ∧
    (∀ pid pg, pagePresent st pid pg → pagePresent (newPageHandler gen r st).2 pid pg) ∧
    ((newPageHandler gen r st).1.success = true →
      (newPageHandler gen r st).1.pageId = some (gen st.nextGen) ∧
      gen st.nextGen ∉ allPageIds st ∧
      pagePresent (newPageHandler gen r st).2 (gen st.nextGen)
        (engineGoto engineNewPage BLANK) ∧
      (newPageHandler gen r st).2.nextGen = st.nextGen + 1) ∧
    ((newPageHandler gen r st).1.success = false →
      (newPageHandler gen r st).1.pageId = none ∧ (newPageHandler gen r st).2 = st) := by
  have hfr : gen st.nextGen ∉ allPageIds st := regInv_fresh_not_mem gen hinj st hInv
  by_cases hb : jsOrDefault r = DEFAULT_BROWSER_ID
  · -- default-session branch, possibly creating the default session first
    obtain ⟨hng, hget, hids, hpres, hsub⟩ := getOrCreateDefault_spec st
    have hnp : newPageHandler gen r st =
        registerNewPage gen (jsOrDefault r) (getOrCreateDefaultBrowser st).1
          (getOrCreateDefaultBrowser st).2 := by
      simp only [newPageHandler]
      rw [if_pos hb]
    have hget2 : mapGet (getOrCreateDefaultBrowser st).2.browsers (jsOrDefault r) =
        some (getOrCreateDefaultBrowser st).1 := by
      rw [hb]
      exact hget
    have hfresh : mapGet (getOrCreateDefaultBrowser st).1.pages
        (gen (getOrCreateDefaultBrowser st).2.nextGen) = none := by
      rw [hng]
      cases hmg : mapGet (getOrCreateDefaultBrowser st).1.pages (gen st.nextGen) with
      | none => rfl
      | some pg => exact absurd (hsub _ (mapGet_mem_keys hmg)) hfr
    obtain ⟨hresp, hng2, hperm, hpp, hpr⟩ :=
      registerNewPage_spec gen (jsOrDefault r) (getOrCreateDefaultBrowser st).1
        (getOrCreateDefaultBrowser st).2 hget2 hfresh
    rw [hnp]
    have hperm2 : List.Perm (allPageIds (registerNewPage gen (jsOrDefault r)
        (getOrCreateDefaultBrowser st).1 (getOrCreateDefaultBrowser st).2).2)
        (gen st.nextGen :: allPageIds st) := by
      rw [← hids, ← hng]
      exact hperm
    refine ⟨⟨?_, ?_⟩, ?_, ?_, ?_⟩
    · exact hperm2.nodup_iff.mpr (List.nodup_cons.mpr ⟨hfr, hInv.1⟩)
    · intro id hid
      rcases List.mem_cons.mp (hperm2.mem_iff.mp hid) with h | h
      · subst h
        refine ⟨st.nextGen, ?_, rfl⟩
        rw [hng2, hng]
        exact Nat.lt_succ_self _
      · obtain ⟨i, hi, hgi⟩ := hInv.2 _ h
        refine ⟨i, ?_, hgi⟩
        rw [hng2, hng]
        exact Nat.lt_succ_of_lt hi
    · intro pid pg h
      have hne : pid ≠ gen st.nextGen := by
        intro he
        subst he
        exact hfr (pagePresent_mem _ _ _ h)
      have h1 := hpres pid pg h
      have := hpr pid pg h1 (by rw [hng]; exact hne)
      exact this
    · intro _
      refine ⟨?_, hfr, ?_, ?_⟩
      · rw [hresp, hng]
      · rw [← hng]
        exact hpp
      · rw [hng2, hng]
    · intro hfail
      rw [hresp] at hfail
      simp at hfail
  · -- explicit-session branch
    cases hmg : mapGet st.browsers (jsOrDefault r) with
    | none =>
      have hnp : newPageHandler gen r st =
          ({ success := false,
             error := some ("Browser not found: ".data ++ jsOrDefault r ++
               ". Create one with: playwright-cli new-browser".data) }, st) := by
        simp only [newPageHandler]
        rw [if_neg hb, hmg]
      rw [hnp]
      exact ⟨hInv, fun pid pg h => h, fun h => by simp at h, fun _ => ⟨rfl, rfl⟩⟩
    | some bd =>
      have hnp : newPageHandler gen r st =
          registerNewPage gen (jsOrDefault r) bd st := by
        simp only [newPageHandler]
        rw [if_neg hb, hmg]
      have hfresh : mapGet bd.pages (gen st.nextGen) = none := by
        cases hmp : mapGet bd.pages (gen st.nextGen) with
        | none => rfl
        | some pg =>
          exact absurd (keys_subset_pageIdsOf _ _ _ hmg _ (mapGet_mem_keys hmp)) hfr
      obtain ⟨hresp, hng2, hperm, hpp, hpr⟩ :=
        registerNewPage_spec gen (jsOrDefault r) bd st hmg hfresh
      rw [hnp]
      refine ⟨⟨?_, ?_⟩, ?_, ?_, ?_⟩
      · exact hperm.nodup_iff.mpr (List.nodup_cons.mpr ⟨hfr, hInv.1⟩)
      · intro id hid
        rcases List.mem_cons.mp (hperm.mem_iff.mp hid) with h | h
        · subst h
          exact ⟨st.nextGen, by rw [hng2]; exact Nat.lt_succ_self _, rfl⟩
        · obtain ⟨i, hi, hgi⟩ := hInv.2 _ h
          exact ⟨i, by rw [hng2]; exact Nat.lt_succ_of_lt hi, hgi⟩
      · intro pid pg h
        refine hpr pid pg h ?_
        intro he
        subst he
        exact hfr (pagePresent_mem _ _ _ h)
      · intro _
        exact ⟨by rw [hresp], hfr, hpp, hng2⟩
      · intro hfail
        rw [hresp] at hfail
        simp at hfail

theorem runNewPages_spec (gen : Nat → Str) (hinj : Function.Injective gen)
    (reqs : List (Option Str)) :
    ∀ st : ServerState, RegInv gen st →
      RegInv gen (runNewPages gen reqs st).2 ∧
      (∀ pid pg, pagePresent st pid pg → pagePresent (runNewPages gen reqs st).2 pid pg) ∧
      (∀ pid ∈ ((runNewPages gen reqs st).1).filterMap (fun resp => resp.pageId),
        (∃ i, st.nextGen ≤ i ∧ gen i = pid) ∧
        pagePresent (runNewPages gen reqs st).2 pid (engineGoto engineNewPage BLANK)) ∧
      (((runNewPages gen reqs st).1).filterMap (fun resp => resp.pageId)).Nodup := by
  induction reqs with
  | nil =>
    intro st hInv
    exact ⟨hInv, fun pid pg h => h, by simp [runNewPages], by simp [runNewPages]⟩
  | cons r rest ih =>
    intro st hInv
    have hrun : runNewPages gen (r :: rest) st =
        ((newPageHandler gen r st).1 ::
           (runNewPages gen rest (newPageHandler gen r st).2).1,
         (runNewPages gen rest (newPageHandler gen r st).2).2) := rfl
    obtain ⟨sInv, spres, ssucc, sfail⟩ := newPageHandler_step gen hinj r st hInv
    obtain ⟨rInv, rpres, rids, rnd⟩ := ih (newPageHandler gen r st).2 sInv
    rw [hrun]
    cases hsucc : (newPageHandler gen r st).1.success with
    | false =>
      obtain ⟨hpid, hst⟩ := sfail hsucc
      refine ⟨rInv, ?_, ?_, ?_⟩
      · intro pid pg h
        refine rpres pid pg ?_
        rw [hst]
        exact h
      · intro pid hmem
        simp only [List.filterMap_cons, hpid] at hmem
        obtain ⟨⟨i, hi, hgi⟩, hpf⟩ := rids pid hmem
        rw [hst] at hi
        exact ⟨⟨i, hi, hgi⟩, hpf⟩
      · simp only [List.filterMap_cons, hpid]
        exact rnd
    | true =>
      obtain ⟨hpid, hfr, hpp, hng⟩ := ssucc hsucc
      refine ⟨rInv, ?_, ?_, ?_⟩
      · intro pid pg h
        exact rpres pid pg (spres pid pg h)
      · intro pid hmem
        simp only [List.filterMap_cons, hpid] at hmem
        rcases List.mem_cons.mp hmem with h | h
        · subst h
          exact ⟨⟨st.nextGen, le_rfl, rfl⟩, rpres _ _ hpp⟩
        · obtain ⟨⟨i, hi, hgi⟩, hpf⟩ := rids pid h
          rw [hng] at hi
          exact ⟨⟨i, Nat.le_of_succ_le hi, hgi⟩, hpf⟩
      · simp only [List.filterMap_cons, hpid]
        refine List.nodup_cons.mpr ⟨?_, rnd⟩
        intro hmem
        obtain ⟨⟨i, hi, hgi⟩, _⟩ := rids _ hmem
        rw [hng] at hi
        have : i = st.nextGen := hinj hgi
        subst this
        exact absurd hi (by omega)

/-- C7: under the assumption that distinct draws from the id stream are
distinct (the design intent of `crypto.randomUUID().slice(0, 8)`, which
the code consumes without any dedup check), every sequence of `newPage`
requests against a freshly started daemon returns pairwise-distinct page
ids, the registry never holds the same page id under two session entries
(the concatenation of all sessions' page ids has no duplicate, and all
returned ids remain live since nothing is closed in the run), and every
returned id is registered mapping to a page handle whose url is the
blank placeholder `about:blank`, established by the handler's `goto`
before the map registration. -/
theorem page_creation_uniqueness (gen : Nat → Str) (hinj : Function.Injective gen)
    (reqs : List (Option Str)) :
    (((runNewPages gen reqs initialState).1).filterMap (fun resp => resp.pageId)).Nodup ∧
    (allPageIds (runNewPages gen reqs initialState).2).Nodup ∧
    (∀ pid ∈ ((runNewPages gen reqs initialState).1).filterMap (fun resp => resp.pageId),
      pagePresent (runNewPages gen reqs initialState).2 pid
        (engineGoto engineNewPage BLANK)) ∧
    (engineGoto engineNewPage BLANK).url = BLANK := by
  have h0 : RegInv gen initialState :=
    ⟨List.nodup_nil, by simp [allPageIds, pageIdsOf, initialState]⟩
  obtain ⟨hI, _, hids, hnd⟩ := runNewPages_spec gen hinj reqs initialState h0
  exact ⟨hnd, hI.1, fun pid hm => (hids pid hm).2, rfl⟩

/-- Witness for C7: two default-session page creations against a
concrete injective id stream yield distinct ids. -/
theorem page_creation_uniqueness_witness :
    (((runNewPages (fun n => List.replicate n 'a') [none, none] initialState).1).filterMap
      (fun resp => resp.pageId)).Nodup :=
  (page_creation_uniqueness (fun n => List.replicate n 'a')
    (fun a b h => by simpa using congrArg List.length h) [none, none]).1

end PlaywrightCli
